import Mathlib

/-!
Shallow embedding of the mqtt-automation orchestrator and device agent.

Go strings are modelled as `List Char`; Go maps as association lists whose
list order is the (arbitrary but fixed) iteration order; Go channels of
capacity one as `Option` slots.  Machine integers stay `Int`/`Nat` (the
program never relies on overflow).  Calls into the Go standard library
(JSON marshalling, process execution) are modelled as explicit function
parameters at the exact call boundary.
-/

namespace MqttAuto

/-- Go `string`, as its character list. -/
abbrev Str := List Char

/-- Coerce a Lean string literal into the `Str` model. -/
def chars (s : String) : Str := s.toList

/-- Go `strings.HasPrefix s p` (empty `p` always matches). -/
def goHasPre : Str → Str → Bool
  | _, [] => true
  | [], _ :: _ => false
  | c :: s, d :: p => c == d && goHasPre s p

/-- Go `strings.Contains s sub`: `sub` occurs contiguously in `s`. -/
def containsL : Str → Str → Bool
  | [], sub => goHasPre [] sub
  | c :: t, sub => goHasPre (c :: t) sub || containsL t sub

/-- Go `strings.ToLower` (restricted to the ASCII case mapping, which is
all the embedded call sites exercise). -/
def goToLower (s : Str) : Str := s.map Char.toLower

/-- Decimal rendering of a natural, as `fmt.Sprintf("%d", n)` produces for
a non-negative integer. -/
def natDigits (n : Nat) : Str := Nat.toDigits 10 n

/-- Association-list lookup: Go `m[k]` with `exists` flag. -/
def lookupA {α : Type} : List (Str × α) → Str → Option α
  | [], _ => none
  | p :: t, k => if p.1 == k then some p.2 else lookupA t k

/-- Association-list erase: Go `delete(m, k)`. -/
def eraseA {α : Type} : List (Str × α) → Str → List (Str × α)
  | [], _ => []
  | p :: t, k => if p.1 == k then eraseA t k else p :: eraseA t k

/-- Association-list insert with overwrite: Go `m[k] = v`. -/
def insertA {α : Type} (l : List (Str × α)) (k : Str) (v : α) : List (Str × α) :=
  (k, v) :: eraseA l k

/-- In-place mutation of the entry the preceding lookup returned: Go code
looks a pointer up in a map and mutates through it. -/
def updateA {α : Type} : List (Str × α) → Str → (α → α) → List (Str × α)
  | [], _, _ => []
  | p :: t, k, f => if p.1 == k then (p.1, f p.2) :: t else p :: updateA t k f

/-- `models.TextPosition`: one text rectangle (top-left origin) from a UI
dump or OCR pass. -/
structure TextPosition where
  text : Str
  x : Int
  y : Int
  width : Int
  height : Int
  source : Str
  confidence : Rat
deriving DecidableEq

/-- `models.Command`: one device command.  The facade populates `id`,
`type_`, the type-specific payload, `serialNo`, `timeout` and `timestamp`;
it never assigns `executionID`. -/
structure Command where
  id : Str
  executionID : Str
  type_ : Str
  command : Str
  x : Int
  y : Int
  text : Str
  timeout : Int
  args : List Str
  serialNo : Str
  timestamp : Int
deriving DecidableEq

/-- `models.Response`: one device response. -/
structure Response where
  id : Str
  command : Str
  status : Str
  result : Str
  error : Str
  screenshot : Str
  textInfo : List TextPosition
  duration : Int
  timestamp : Int
deriving DecidableEq

/-- The all-zero `models.Response` (Go zero value for each field). -/
def Response.zero : Response :=
  { id := [], command := [], status := [], result := [], error := []
    screenshot := [], textInfo := [], duration := 0, timestamp := 0 }

/-! ### Facade (`pkg/scripts/client.go`) -/

/-- `MQTTScriptClient.generateCommandID`:
`fmt.Sprintf("cmd_%s_%d", msc.deviceID, time.Now().UnixNano())`. -/
def generateCommandID (deviceID : Str) (nanos : Nat) : Str :=
  chars "cmd_" ++ deviceID ++ chars "_" ++ natDigits nanos

/-- `GoScriptEngine.ExecuteScript`'s execution-id generator:
`fmt.Sprintf("%s_%s_%d", request.DeviceID, request.ScriptName, time.Now().Unix())`. -/
def generateExecutionID (deviceID scriptName : Str) (unixSeconds : Nat) : Str :=
  deviceID ++ chars "_" ++ scriptName ++ chars "_" ++ natDigits unixSeconds

/-- `MQTTScriptClient.ExecuteShell`: builds the `shell` command published
for the facade's device.  `nanos` is the `UnixNano` read inside
`generateCommandID`; `now` the `Unix` read for the timestamp. -/
def ExecuteShellCmd (deviceID : Str) (timeout : Int) (command : Str)
    (nanos : Nat) (now : Int) : Command :=
  { id := generateCommandID deviceID nanos
    executionID := []
    type_ := chars "shell"
    command := command
    x := 0, y := 0, text := []
    timeout := timeout
    args := []
    serialNo := deviceID
    timestamp := now }

/-- `MQTTScriptClient.Tap`: builds the `tap` command. -/
def TapCmd (deviceID : Str) (timeout : Int) (x y : Int)
    (nanos : Nat) (now : Int) : Command :=
  { id := generateCommandID deviceID nanos
    executionID := []
    type_ := chars "tap"
    command := []
    x := x, y := y, text := []
    timeout := timeout
    args := []
    serialNo := deviceID
    timestamp := now }

/-! ### Correlator (`ResponseWaiter`, `pkg/scripts/client.go`) -/

/-- `ResponseWaiter`: the synchronized map from command id to its one-slot
delivery channel.  A channel of capacity one is an `Option Response` slot:
`none` empty, `some r` holding the buffered response `r`. -/
structure ResponseWaiter where
  pendingCommands : List (Str × Option Response)
deriving DecidableEq

/-- `ResponseWaiter.RegisterCommand`: allocate a fresh (empty) buffered
channel and insert it under the command id. -/
def RegisterCommand (rw : ResponseWaiter) (commandID : Str) : ResponseWaiter :=
  ⟨insertA rw.pendingCommands commandID none⟩

/-- `ResponseWaiter.HandleResponse`: look the response id up; if present,
non-blockingly send on the channel (succeeds exactly when the one-slot
buffer is empty), then delete the map entry and close the channel.  The
second component is what the channel's reader will receive: the newly sent
response, or the value already buffered when the send was dropped. -/
def ResponseWaiter.HandleResponse (rw : ResponseWaiter) (response : Response) :
    ResponseWaiter × Option Response :=
  match lookupA rw.pendingCommands response.id with
  | some slot =>
      (⟨eraseA rw.pendingCommands response.id⟩,
       match slot with
       | none => some response
       | some buffered => some buffered)
  | none => (rw, none)

/-- `command execution timeout` response synthesized by
`MQTTScriptClient.executeCommand` when the deadline fires. -/
def timeoutResponse (command : Command) (now : Int) : Response :=
  { Response.zero with
    id := command.id
    command := command.command
    status := chars "timeout"
    error := chars "command execution timeout"
    timestamp := now }

/-- `MQTTScriptClient.executeCommand`, whole-wait run: register the
command, publish, then block on the channel with the per-command deadline.
`deviceResp` is the response (if any) the broker handler feeds to this
waiter before the deadline; `none` is the timeout path.  Returns the
response handed back to the script and the waiter map after the wait
completes. -/
def executeCommandRun (rw : ResponseWaiter) (command : Command) (now : Int)
    (deviceResp : Option Response) : Response × ResponseWaiter :=
  let rw1 := RegisterCommand rw command.id
  match deviceResp with
  | some r =>
      let (rw2, sent) := ResponseWaiter.HandleResponse rw1 r
      if r.id == command.id then
        match sent with
        | some received => (received, rw2)
        | none => (timeoutResponse command now, rw2)
      else
        (timeoutResponse command now, rw2)
  | none => (timeoutResponse command now, rw1)

/-! ### Engine-level response dispatch (`GoScriptEngine.HandleResponse`) -/

/-- One live execution as `GoScriptEngine.HandleResponse` sees it:
`waiter = some w` exactly when `execution.Context != nil` and
`execution.Context.Client` is an `*MQTTScriptClient` (whose
`responseHandler` is `w`). -/
structure EngExecution where
  id : Str
  waiter : Option ResponseWaiter
deriving DecidableEq

/-- `GoScriptEngine.HandleResponse`: iterate the executions map (the list
order is the iteration order); forward the response to the first execution
whose context holds an MQTT script client and return.  If none qualifies,
log and drop.  Second component: the id of the execution the response was
forwarded to. -/
def GoScriptEngine.HandleResponse :
    List EngExecution → Response → List EngExecution × Option Str
  | [], _ => ([], none)
  | e :: rest, response =>
      match e.waiter with
      | some w =>
          ({ e with waiter := some (ResponseWaiter.HandleResponse w response).1 } :: rest,
           some e.id)
      | none =>
          let (rest', fwd) := GoScriptEngine.HandleResponse rest response
          (e :: rest', fwd)

/-- The id of the execution whose response sink actually receives the
response: the forward target, provided its waiter has an empty pending
slot under exactly the response's id. -/
def deliveredTo (executions : List EngExecution) (response : Response) : Option Str :=
  match executions with
  | [] => none
  | e :: rest =>
      match e.waiter with
      | some w =>
          match lookupA w.pendingCommands response.id with
          | some none => some e.id
          | _ => none
      | none => deliveredTo rest response

/-! ### Script runtime context (`pkg/scripts/builtin.go`, context part) -/

/-- A Go `interface\x7b\x7d` value as stored in a `Variables` map: the JSON
scalar shapes the accessors dispatch on.  `vfloat` carries the exact
rational value of the `float64` (every call site uses values this
representation covers). -/
inductive GoVal where
  | vstr (s : Str)
  | vint (n : Int)
  | vfloat (q : Rat)
  | vbool (b : Bool)
  | vnull
deriving DecidableEq

/-- A `map[string]interface\x7b\x7d` of script vars.  `Option VarMap`
distinguishes a `nil` map (`none`) from an allocated one. -/
abbrev VarMap := List (Str × GoVal)

/-- Go `int(v)` on a `float64`: truncation toward zero. -/
def goTrunc (q : Rat) : Int := Int.tdiv q.num (q.den : Int)

/-- `fmt.Sscanf(v, "%d", &result)` as used by `ConvertCoordinateToInt`:
skip leading white space, accept an optional sign and at least one decimal
digit, ignore trailing input; `none` on a scan error. -/
def parseGoInt (s : Str) : Option Int :=
  let s1 := s.dropWhile (fun c => c == ' ' || c == '\t' || c == '\n' || c == '\r')
  let signAndRest : Bool × Str :=
    match s1 with
    | '-' :: t => (true, t)
    | '+' :: t => (false, t)
    | _ => (false, s1)
  let ds := signAndRest.2.takeWhile Char.isDigit
  if ds = [] then none
  else
    let n : Nat := ds.foldl (fun acc c => acc * 10 + (c.toNat - 48)) 0
    some (if signAndRest.1 then -(n : Int) else (n : Int))

/-- `ConvertCoordinateToInt`: int and float64 convert directly, strings go
through the `%d` scan, anything else is an error (`none`). -/
def ConvertCoordinateToInt : GoVal → Option Int
  | GoVal.vint n => some n
  | GoVal.vfloat q => some (goTrunc q)
  | GoVal.vstr s => parseGoInt s
  | _ => none

/-- `ScriptContext` (the fields the embedded operations read; the client,
logger and Go context handles carry no data the claims touch). -/
structure ScriptContext where
  deviceID : Str
  executionID : Str
  vars : VarMap
deriving DecidableEq

/-- `NewScriptContext`: a `nil` vars map is replaced by a freshly
allocated empty one. -/
def NewScriptContext (deviceID executionID : Str) (vars : Option VarMap) :
    ScriptContext :=
  { deviceID := deviceID, executionID := executionID
    vars := vars.getD [] }

/-- `ScriptContext.GetStringVariable`: the value if present and a string,
else the default. -/
def ScriptContext.GetStringVariable (sc : ScriptContext) (key : Str)
    (defaultValue : Str) : Str :=
  match lookupA sc.vars key with
  | some (GoVal.vstr s) => s
  | _ => defaultValue

/-- `ScriptContext.GetIntVariable`: ints pass through, float64 truncates,
strings are scanned with `%d` (falling back to the default on a scan
error), anything else yields the default. -/
def ScriptContext.GetIntVariable (sc : ScriptContext) (key : Str)
    (defaultValue : Int) : Int :=
  match lookupA sc.vars key with
  | some (GoVal.vint n) => n
  | some (GoVal.vfloat q) => goTrunc q
  | some (GoVal.vstr s) =>
      match parseGoInt s with
      | some i => i
      | none => defaultValue
  | _ => defaultValue

/-! ### Script engine lifecycle (`pkg/scripts/engine.go`) -/

/-- `ScriptResult` (the fields the lifecycle operations write). -/
structure ScriptResult where
  success : Bool
  message : Str
  error : Str
  duration : Int
deriving DecidableEq

/-- `NewErrorResult(message, err)` with `err = nil`. -/
def NewErrorResultNil (message : Str) : ScriptResult :=
  { success := false, message := message, error := [], duration := 0 }

/-- `ScriptExecution`: the per-run lifecycle record.  `context` is the
pointer set at creation (`none` models a nil `Context`). -/
structure ScriptExecution where
  id : Str
  scriptName : Str
  deviceID : Str
  vars : Option VarMap
  startTime : Nat
  endTime : Option Nat
  status : Str
  result : Option ScriptResult
  context : Option ScriptContext
deriving DecidableEq

/-- A terminal lifecycle status. -/
def isTerminal (status : Str) : Bool :=
  status == chars "completed" || status == chars "failed" || status == chars "cancelled"

/-- Outcome of `registry.Execute` observed by `executeScriptAsync`: an
error, a returned result, or a recovered panic. -/
inductive RunOutcome where
  | err (msg : Str)
  | ok (result : ScriptResult)
  | panicked (msg : Str)
deriving DecidableEq

/-- Tail of `GoScriptEngine.executeScriptAsync` once `registry.Execute`
returns (or panics): stamp the end time and overwrite status and result —
with no guard on the current status.  `runStart` is the goroutine's local
`startTime`; `endTime` the `time.Now()` read afterwards. -/
def executeScriptAsyncFinish (execution : ScriptExecution) (outcome : RunOutcome)
    (runStart endTime : Nat) : ScriptExecution :=
  match outcome with
  | RunOutcome.err m =>
      { execution with
        status := chars "failed"
        endTime := some endTime
        result := some { NewErrorResultNil (chars "Execution error: " ++ m) with
                          duration := (endTime : Int) - (runStart : Int) } }
  | RunOutcome.ok r =>
      { execution with
        status := if r.success then chars "completed" else chars "failed"
        endTime := some endTime
        result := some { r with duration := (endTime : Int) - (runStart : Int) } }
  | RunOutcome.panicked m =>
      { execution with
        status := chars "failed"
        endTime := some endTime
        result := some (NewErrorResultNil (chars "Script panic: " ++ m)) }

/-- Body of `GoScriptEngine.CancelExecution` applied to the execution the
lookup returned: only a running execution with a non-nil context is
cancelled; anything else is left untouched. -/
def cancelStep (execution : ScriptExecution) (now : Nat) : ScriptExecution :=
  if execution.status == chars "running" && execution.context.isSome then
    { execution with
      status := chars "cancelled"
      endTime := some now
      result := some (NewErrorResultNil (chars "Execution cancelled by user")) }
  else execution

/-- `GoScriptEngine.CancelExecution`: error when the id is not live,
otherwise mutate the looked-up record in place and return nil. -/
def GoScriptEngine.CancelExecution (executions : List (Str × ScriptExecution))
    (executionID : Str) (now : Nat) :
    Except Str (List (Str × ScriptExecution)) :=
  match lookupA executions executionID with
  | none => Except.error (chars "execution not found")
  | some _ => Except.ok (updateA executions executionID (fun e => cancelStep e now))

/-- `models.ScriptRequest`. -/
structure ScriptRequest where
  deviceID : Str
  scriptName : Str
  vars : Option VarMap
deriving DecidableEq

/-- `models.ScriptResponse` (the fields `ExecuteScript` populates). -/
structure ScriptResponse where
  executionID : Str
  status : Str
  message : Str
  startTime : Nat
deriving DecidableEq

/-- The engine state `ExecuteScript` mutates: the live execution map and
the per-execution response channel keys. -/
structure EngineState where
  executions : List (Str × ScriptExecution)
  responseChans : List Str
deriving DecidableEq

/-- The names `ScriptRegistry.RegisterBuiltinScripts` registers (the
registry's `Get` is membership in this catalog). -/
def builtinScripts : List Str :=
  [chars "find_and_click", chars "login", chars "screenshot",
   chars "smart_navigate", chars "wait", chars "input_text",
   chars "check_text", chars "execute_shell", chars "click_coordinate"]

/-- `GoScriptEngine.ExecuteScript`: generate the execution id, reject an
unknown script (map untouched), otherwise insert the running record and
its response channel and return the started `ScriptResponse`.  (Go quotes
the script name in the error text; the quotes are elided here.) -/
def GoScriptEngine.ExecuteScript (registry : List Str) (st : EngineState)
    (request : ScriptRequest) (now : Nat) :
    Except Str ScriptResponse × EngineState :=
  let executionID := generateExecutionID request.deviceID request.scriptName now
  if registry.contains request.scriptName then
    let context := NewScriptContext request.deviceID executionID request.vars
    let execution : ScriptExecution :=
      { id := executionID
        scriptName := request.scriptName
        deviceID := request.deviceID
        vars := request.vars
        startTime := now
        endTime := none
        status := chars "running"
        result := none
        context := some context }
    (Except.ok
       { executionID := executionID
         status := chars "running"
         message := chars "Script execution started"
         startTime := now },
     { executions := insertA st.executions executionID execution
       responseChans := executionID :: st.responseChans })
  else
    (Except.error (chars "script " ++ request.scriptName ++ chars " not found"), st)

/-! ### Device agent (`src/client/main.go`) -/

/-- Result of `exec.Command(prog, args...).CombinedOutput()`: the combined
output and the error, if any (`exec.Command` carries no context, so no
deadline can cut the child off). -/
structure ToolOutcome where
  output : Str
  err : Option Str
deriving DecidableEq

/-- `Client.executeShellCommand`: reject an empty command; in mock mode
(`MOCK_SERIAL` set) substitute the simulated output; otherwise run the
command via `exec.Command` — defaulting to `/bin/sh -c` when no args were
given — with NO timeout context, and mark any tool error as status
`error`.  `runTool` models `CombinedOutput` on the chosen argv;
`simulate` models `simulateShellCommand`. -/
def Client.executeShellCommand (command : Command) (mockSerialSet : Bool)
    (simulate : Str → List Str → Str)
    (runTool : Str → List Str → ToolOutcome)
    (response : Response) : Response :=
  if command.command == [] then
    { response with status := chars "error", error := chars "命令为空" }
  else if mockSerialSet then
    { response with result := simulate command.command command.args }
  else
    let argv : Str × List Str :=
      if command.args == [] then
        (chars "/bin/sh", [chars "-c", command.command])
      else
        (command.command, command.args)
    let outcome := runTool argv.1 argv.2
    let response := { response with result := outcome.output }
    match outcome.err with
    | some e => { response with status := chars "error", error := e }
    | none => response

/-! ### Persistence (`pkg/engine/script_engine.go`, `saveExecution`) -/

/-- `models.ExecutionContext` (the fields `saveExecution` touches; the
serialized payload is produced by the marshaller parameter). -/
structure ExecutionContextM where
  executionID : Str
  scriptName : Str
  deviceID : Str
  status : Str
deriving DecidableEq

/-- One filesystem effect. -/
inductive FsOp where
  | write (path : Str) (content : Str)
  | rename (oldPath newPath : Str)
deriving DecidableEq

/-- `ScriptEngine.saveExecution` as the sequence of filesystem operations
it performs: nothing when persistence is disabled or marshalling fails,
otherwise a single direct `os.WriteFile` of `<execution_id>.json` under
the executions directory.  `marshal` models
`json.MarshalIndent(context, "", "  ")` (pretty-printed payload, `none` on
a marshal error). -/
def ScriptEngine.saveExecution (persistencePath : Str)
    (marshal : ExecutionContextM → Option Str)
    (context : ExecutionContextM) : List FsOp :=
  if persistencePath == [] then []
  else
    match marshal context with
    | none => []
    | some data =>
        [FsOp.write (persistencePath ++ chars "/" ++ context.executionID ++ chars ".json") data]

/-- What "write `<id>.json` atomically (write-then-rename)" demands of an
operation sequence: a write to a temporary path followed by a rename of
that path onto the final one. -/
def writesAtomicallyTo (ops : List FsOp) (finalPath : Str) : Prop :=
  ∃ tmp data, tmp ≠ finalPath ∧ ops = [FsOp.write tmp data, FsOp.rename tmp finalPath]

/-! ### `find_and_click` (`pkg/scripts/builtin.go`) -/

/-- The match loop of `FindAndClickScript`: the first returned position
whose lower-cased text contains the lower-cased needle. -/
def findTargetPos (text : Str) : List TextPosition → Option TextPosition
  | [] => none
  | ti :: rest =>
      if containsL (goToLower ti.text) (goToLower text) then some ti
      else findTargetPos text rest

/-- What one `find_and_click` run does after its screenshot: `none` when
no tap was issued, `some (x, y)` the tap coordinates. -/
structure FACOutcome where
  success : Bool
  tapped : Option (Int × Int)
deriving DecidableEq

/-- Core of `FindAndClickScript` from the screenshot response on: fail on
a non-success screenshot; search the returned positions; on a miss fail
iff `required`; on a hit tap the rectangle center
`(x + width/2, y + height/2)` (Go integer division truncates toward
zero).  `tapStatus` is the status of the device's tap response. -/
def FindAndClickScript (text : Str) (required : Bool)
    (screenshotResp : Response) (tapStatus : Str) : FACOutcome :=
  if screenshotResp.status != chars "success" then
    { success := false, tapped := none }
  else
    match findTargetPos text screenshotResp.textInfo with
    | none =>
        if required then { success := false, tapped := none }
        else { success := true, tapped := none }
    | some targetPos =>
        let clickX := targetPos.x + Int.tdiv targetPos.width 2
        let clickY := targetPos.y + Int.tdiv targetPos.height 2
        { success := tapStatus == chars "success", tapped := some (clickX, clickY) }

/-! ### Concrete fixtures used by counterexamples and witnesses -/

/-- A live execution map holding one execution (id `d_s_5`) whose facade
waiter is pending on command `cmd_d_7`. -/
def exsOne : List EngExecution :=
  [{ id := chars "d_s_5", waiter := some ⟨[(chars "cmd_d_7", none)]⟩ }]

/-- The device response answering command `cmd_d_7`. -/
def respD7 : Response :=
  { Response.zero with
    id := chars "cmd_d_7"
    status := chars "success"
    result := chars "ok" }

/-- An execution map whose first entry has no MQTT client and whose second
(id `b`) waits on command `cmd_x_1`. -/
def exsTwo : List EngExecution :=
  [{ id := chars "a", waiter := none },
   { id := chars "b", waiter := some ⟨[(chars "cmd_x_1", none)]⟩ }]

/-- The device response answering command `cmd_x_1`. -/
def respX1 : Response :=
  { Response.zero with id := chars "cmd_x_1", status := chars "success" }

/-- A freshly created running execution for device `d`, script `wait`. -/
def runningExec : ScriptExecution :=
  { id := chars "d_wait_1"
    scriptName := chars "wait"
    deviceID := chars "d"
    vars := none
    startTime := 1
    endTime := none
    status := chars "running"
    result := none
    context := some (NewScriptContext (chars "d") (chars "d_wait_1") none) }

/-- A successful script result. -/
def okResult : ScriptResult :=
  { success := true, message := chars "Waited for 2 seconds", error := [], duration := 0 }

/-- A completed execution record. -/
def doneExec : ScriptExecution :=
  executeScriptAsyncFinish runningExec (RunOutcome.ok okResult) 1 3

/-- A marshaller standing in for `json.MarshalIndent` on the fixture
record (the payload text is irrelevant to the filesystem-shape facts). -/
def marshalStub : ExecutionContextM → Option Str := fun _ => some (chars "\x7b\x7d")

/-- The persisted record fixture. -/
def ctxRun1 : ExecutionContextM :=
  { executionID := chars "run1", scriptName := chars "wait"
    deviceID := chars "d", status := chars "completed" }

/-- The `shell` command fixture the facade would publish for device `d`. -/
def shellCmdD : Command := ExecuteShellCmd (chars "d") 30 (chars "ls") 7 0

/-- A screenshot response whose UI dump contains `登录` at
x=400, y=900, width=200, height=60. -/
def screenLogin : Response :=
  { Response.zero with
    status := chars "success"
    screenshot := chars "img"
    textInfo := [{ text := chars "登录", x := 400, y := 900, width := 200,
                   height := 60, source := chars "ui", confidence := 100 }] }

/-- A tool outcome reporting that the child process was killed: the error
string a deadline would produce, though the agent never sets one up. -/
def killedOutcome : ToolOutcome :=
  { output := [], err := some (chars "context deadline exceeded") }

/-- The agent-side incoming response skeleton (`executeCommand` presets
status `success`). -/
def agentResp : Response :=
  { Response.zero with id := chars "cmd_d_7", status := chars "success" }

/-- The rational 5/2, a non-integral `float64` value. -/
def q52 : Rat := ⟨5, 2, by norm_num, by norm_num⟩

/-! ### Helper lemmas -/

theorem lookupA_insertA {α : Type} (l : List (Str × α)) (k : Str) (v : α) :
    lookupA (insertA l k v) k = some v := by
  simp [insertA, lookupA]

theorem lookupA_eraseA {α : Type} (l : List (Str × α)) (k : Str) :
    lookupA (eraseA l k) k = none := by
  induction l with
  | nil => rfl
  | cons p t ih =>
      by_cases h : p.1 = k
      · simp [eraseA, h, ih]
      · simp [eraseA, h, lookupA, ih]

theorem updateA_eq_of_lookupA {α : Type} {l : List (Str × α)} {k : Str}
    {f : α → α} {e : α} (hl : lookupA l k = some e) (hf : f e = e) :
    updateA l k f = l := by
  induction l with
  | nil => rfl
  | cons p t ih =>
      obtain ⟨a, b⟩ := p
      by_cases h : a = k
      · simp [lookupA, h] at hl
        simp [updateA, h, hl, hf]
      · simp [lookupA, h] at hl
        simp [updateA, h, ih hl]

theorem goHasPre_map (f : Char → Char) :
    ∀ s p : Str, goHasPre s p = true → goHasPre (s.map f) (p.map f) = true
  | s, [], _ => by cases s <;> rfl
  | [], _ :: _, h => by simp [goHasPre] at h
  | c :: s', d :: p', h => by
      simp [goHasPre] at h ⊢
      exact ⟨by rw [h.1], goHasPre_map f s' p' h.2⟩

theorem containsL_map (f : Char → Char) :
    ∀ s sub : Str, containsL s sub = true → containsL (s.map f) (sub.map f) = true
  | [], sub, h => by
      simpa [containsL] using goHasPre_map f [] sub (by simpa [containsL] using h)
  | c :: t, sub, h => by
      simp [containsL] at h ⊢
      rcases h with h | h
      · exact Or.inl (goHasPre_map f (c :: t) sub h)
      · exact Or.inr (containsL_map f t sub h)

theorem findTargetPos_isSome (text : Str) :
    ∀ l : List TextPosition,
      (∃ ti ∈ l, containsL (goToLower ti.text) (goToLower text) = true) →
      ∃ p, findTargetPos text l = some p
  | [], h => by simp at h
  | ti :: rest, h => by
      by_cases hm : containsL (goToLower ti.text) (goToLower text) = true
      · exact ⟨ti, by simp [findTargetPos, hm]⟩
      · obtain ⟨tj, hmem, hj⟩ := h
        rcases List.mem_cons.mp hmem with rfl | hmem'
        · exact absurd hj hm
        · obtain ⟨p, hp⟩ := findTargetPos_isSome text rest ⟨tj, hmem', hj⟩
          exact ⟨p, by simpa [findTargetPos, hm] using hp⟩

theorem handleResponse_fwd (response : Response) :
    ∀ executions : List EngExecution,
      (GoScriptEngine.HandleResponse executions response).2
        = (executions.find? (fun e => e.waiter.isSome)).map EngExecution.id
  | [] => rfl
  | e :: rest => by
      cases hw : e.waiter with
      | some w =>
          simp [GoScriptEngine.HandleResponse, hw, List.find?_cons]
      | none =>
          simpa [GoScriptEngine.HandleResponse, hw, List.find?_cons]
            using handleResponse_fwd response rest

theorem handleResponse_drop (response : Response) :
    ∀ executions : List EngExecution,
      executions.find? (fun e => e.waiter.isSome) = none →
      GoScriptEngine.HandleResponse executions response = (executions, none)
  | [], _ => rfl
  | e :: rest, h => by
      cases hw : e.waiter with
      | some w => simp [List.find?_cons, hw] at h
      | none =>
          have h' : rest.find? (fun e => e.waiter.isSome) = none := by
            simpa [List.find?_cons, hw] using h
          simp [GoScriptEngine.HandleResponse, hw, handleResponse_drop response rest h']

theorem deliveredTo_sound (response : Response) :
    ∀ (executions : List EngExecution) (i : Str),
      deliveredTo executions response = some i →
      ∃ e w, executions.find? (fun e => e.waiter.isSome) = some e ∧ e.id = i
        ∧ e.waiter = some w ∧ lookupA w.pendingCommands response.id = some none
  | [], i, h => by simp [deliveredTo] at h
  | e :: rest, i, h => by
      cases hw : e.waiter with
      | some w =>
          cases hl : lookupA w.pendingCommands response.id with
          | some slot =>
              cases slot with
              | none =>
                  have hi : e.id = i := by
                    simpa [deliveredTo, hw, hl] using h
                  exact ⟨e, w, by simp [List.find?_cons, hw], hi, hw, hl⟩
              | some r => simp [deliveredTo, hw, hl] at h
          | none => simp [deliveredTo, hw, hl] at h
      | none =>
          obtain ⟨e', w', hfind, hi, hw', hl'⟩ :=
            deliveredTo_sound response rest i (by simpa [deliveredTo, hw] using h)
          exact ⟨e', w', by simpa [List.find?_cons, hw] using hfind, hi, hw', hl'⟩

theorem executeScript_pos (registry : List Str) (st : EngineState)
    (request : ScriptRequest) (now : Nat)
    (h : registry.contains request.scriptName = true) :
    GoScriptEngine.ExecuteScript registry st request now
      = (Except.ok { executionID := generateExecutionID request.deviceID
                       request.scriptName now,
                     status := chars "running",
                     message := chars "Script execution started",
                     startTime := now },
         { executions := insertA st.executions
             (generateExecutionID request.deviceID request.scriptName now)
             { id := generateExecutionID request.deviceID request.scriptName now
               scriptName := request.scriptName
               deviceID := request.deviceID
               vars := request.vars
               startTime := now
               endTime := none
               status := chars "running"
               result := none
               context := some (NewScriptContext request.deviceID
                 (generateExecutionID request.deviceID request.scriptName now)
                 request.vars) }
           responseChans := generateExecutionID request.deviceID request.scriptName now
             :: st.responseChans }) := by
  have h' : request.scriptName ∈ registry := by simpa using h
  simp [GoScriptEngine.ExecuteScript, h']

theorem executeScript_neg (registry : List Str) (st : EngineState)
    (request : ScriptRequest) (now : Nat)
    (h : registry.contains request.scriptName = false) :
    GoScriptEngine.ExecuteScript registry st request now
      = (Except.error (chars "script " ++ request.scriptName ++ chars " not found"), st) := by
  have h' : request.scriptName ∉ registry := by simpa using h
  simp [GoScriptEngine.ExecuteScript, h']

theorem cancelStep_terminal {e : ScriptExecution} (now : Nat)
    (h : isTerminal e.status = true) : cancelStep e now = e := by
  have hr : (e.status == chars "running") = false := by
    simp only [isTerminal, Bool.or_eq_true, beq_iff_eq] at h
    rcases h with (h | h) | h <;> rw [h] <;> decide
  simp [cancelStep, hr]

/-! ### Claim C2 — command-id shape vs execution-id. -/

/-- C2 counterexample: for the execution of script `s` on device `d`
started at unix second 5 (execution id `d_s_5`), the shell command the
facade builds at nanosecond 7 has id `cmd_d_7`, and the execution id is
not one of its leading segments.  The claim that every facade command id
has the execution id as a leading segment is therefore false. -/
theorem C2_counterexample :
    goHasPre (ExecuteShellCmd (chars "d") 30 (chars "ls") 7 0).id
      (generateExecutionID (chars "d") (chars "s") 5) = false := by
  decide

/-- C2 (amended): every command the facade builds has id
`cmd_<device>_<unix-nanos>` — embedding the device id, not the execution
id — and its `execution_id` field is left empty; the execution id is not
in general a leading segment of the command id. -/
theorem C2_command_id_shape (deviceID command : Str) (timeout x y : Int)
    (nanos : Nat) (now : Int) :
    (ExecuteShellCmd deviceID timeout command nanos now).id
        = chars "cmd_" ++ deviceID ++ chars "_" ++ natDigits nanos
      ∧ (ExecuteShellCmd deviceID timeout command nanos now).executionID = []
      ∧ (TapCmd deviceID timeout x y nanos now).id
        = chars "cmd_" ++ deviceID ++ chars "_" ++ natDigits nanos
      ∧ (TapCmd deviceID timeout x y nanos now).executionID = [] :=
  ⟨rfl, rfl, rfl, rfl⟩

/-! ### Claim C7 — `find_and_click` taps the rectangle center. -/

/-- C7: in any `find_and_click` run whose successful screenshot returns a
text position containing the requested text, the matched position `p`
exists and the tap is issued at `(p.x + p.width/2, p.y + p.height/2)`,
the center of its rectangle. -/
theorem C7_find_and_click_center (text : Str) (required : Bool)
    (screenshotResp : Response) (tapStatus : Str)
    (hok : screenshotResp.status = chars "success")
    (hmatch : ∃ ti ∈ screenshotResp.textInfo, containsL ti.text text = true) :
    ∃ p, findTargetPos text screenshotResp.textInfo = some p
      ∧ (FindAndClickScript text required screenshotResp tapStatus).tapped
        = some (p.x + Int.tdiv p.width 2, p.y + Int.tdiv p.height 2) := by
  obtain ⟨ti, hmem, hsub⟩ := hmatch
  obtain ⟨p, hp⟩ := findTargetPos_isSome text screenshotResp.textInfo
    ⟨ti, hmem, containsL_map Char.toLower ti.text text hsub⟩
  refine ⟨p, hp, ?_⟩
  have hne : (screenshotResp.status != chars "success") = false := by
    rw [hok]; decide
  simp [FindAndClickScript, hne, hp]

/-- C7 witness: for the `登录` run of the spec's scenario 2 (match at
x=400, y=900, width=200, height=60) the matched position exists and the
tap lands at (500, 930). -/
theorem C7_witness :
    (∃ p, findTargetPos (chars "登录") screenLogin.textInfo = some p
        ∧ (FindAndClickScript (chars "登录") true screenLogin (chars "success")).tapped
          = some (p.x + Int.tdiv p.width 2, p.y + Int.tdiv p.height 2))
      ∧ (FindAndClickScript (chars "登录") true screenLogin (chars "success")).tapped
        = some (500, 930) := by
  refine ⟨C7_find_and_click_center (chars "登录") true screenLogin (chars "success")
    (by decide) ?_, by decide⟩
  exact ⟨{ text := chars "登录", x := 400, y := 900, width := 200, height := 60,
           source := chars "ui", confidence := 100 }, by decide, by decide⟩

/-! ### Claim C9 — cancelling a terminal execution is a no-op. -/

/-- C9: `CancelExecution` on a live execution whose status is already
terminal (completed, failed or cancelled) returns without error and
leaves the execution map — hence the execution's status, end time and
result — exactly as it was. -/
theorem C9_cancel_terminal_noop (executions : List (Str × ScriptExecution))
    (executionID : Str) (now : Nat) (e : ScriptExecution)
    (hl : lookupA executions executionID = some e)
    (ht : isTerminal e.status = true) :
    GoScriptEngine.CancelExecution executions executionID now = Except.ok executions := by
  simp only [GoScriptEngine.CancelExecution, hl]
  exact congrArg Except.ok
    (updateA_eq_of_lookupA hl (cancelStep_terminal now ht))

/-- C9 witness: cancelling the completed fixture execution returns ok and
the singleton execution map unchanged. -/
theorem C9_witness :
    GoScriptEngine.CancelExecution [(chars "d_wait_1", doneExec)]
      (chars "d_wait_1") 9 = Except.ok [(chars "d_wait_1", doneExec)] :=
  C9_cancel_terminal_noop [(chars "d_wait_1", doneExec)] (chars "d_wait_1") 9
    doneExec (by decide) (by decide)

/-! ### Claim C10 — nil variables map is safe; typed accessors. -/

/-- C10: an execution started with a nil variables map gets a context
holding a non-nil empty map (both directly from `NewScriptContext` and
through `ExecuteScript`); on such a context `GetStringVariable` and
`GetIntVariable` return the supplied default for every key; and for
present keys `GetIntVariable` accepts int values, float64 values
(truncated toward zero) and decimal-string values. -/
theorem C10_nil_vars_safe (deviceID executionID key sd : Str) (dd : Int) :
    (NewScriptContext deviceID executionID none).vars = []
      ∧ ScriptContext.GetStringVariable (NewScriptContext deviceID executionID none) key sd = sd
      ∧ ScriptContext.GetIntVariable (NewScriptContext deviceID executionID none) key dd = dd
      ∧ (∀ (vm : VarMap) (n : Int), lookupA vm key = some (GoVal.vint n) →
          ScriptContext.GetIntVariable ⟨deviceID, executionID, vm⟩ key dd = n)
      ∧ (∀ (vm : VarMap) (q : Rat), lookupA vm key = some (GoVal.vfloat q) →
          ScriptContext.GetIntVariable ⟨deviceID, executionID, vm⟩ key dd = goTrunc q)
      ∧ (∀ (vm : VarMap) (s : Str) (i : Int), lookupA vm key = some (GoVal.vstr s) →
          parseGoInt s = some i →
          ScriptContext.GetIntVariable ⟨deviceID, executionID, vm⟩ key dd = i)
      ∧ (∀ (registry : List Str) (st : EngineState) (req : ScriptRequest) (now : Nat),
          req.vars = none → registry.contains req.scriptName = true →
          ∃ ex, lookupA (GoScriptEngine.ExecuteScript registry st req now).2.executions
              (generateExecutionID req.deviceID req.scriptName now) = some ex
            ∧ ex.context = some (NewScriptContext req.deviceID
                (generateExecutionID req.deviceID req.scriptName now) none)) := by
  refine ⟨rfl, ?_, ?_, ?_, ?_, ?_, ?_⟩
  · simp [ScriptContext.GetStringVariable, NewScriptContext, lookupA]
  · simp [ScriptContext.GetIntVariable, NewScriptContext, lookupA]
  · intro vm n h; simp [ScriptContext.GetIntVariable, h]
  · intro vm q h; simp [ScriptContext.GetIntVariable, h]
  · intro vm s i h hp; simp [ScriptContext.GetIntVariable, h, hp]
  · intro registry st req now hvars hc
    simp only [GoScriptEngine.ExecuteScript, hc, if_true]
    exact ⟨_, lookupA_insertA st.executions _ _, by simp [hvars]⟩

/-- C10 witness: on the nil-variables context the accessors return the
defaults, and concrete int / float / decimal-string variable values are
accepted; `ExecuteScript` for the `wait` script with nil variables stores
a context with the empty (non-nil) map. -/
theorem C10_witness :
    ScriptContext.GetStringVariable
        (NewScriptContext (chars "d") (chars "d_wait_1") none) (chars "u") (chars "x")
      = chars "x"
    ∧ ScriptContext.GetIntVariable
        (NewScriptContext (chars "d") (chars "d_wait_1") none) (chars "timeout") 30 = 30
    ∧ ScriptContext.GetIntVariable
        ⟨chars "d", chars "d_wait_1", [(chars "timeout", GoVal.vint 15)]⟩
        (chars "timeout") 30 = 15
    ∧ ScriptContext.GetIntVariable
        ⟨chars "d", chars "d_wait_1", [(chars "timeout", GoVal.vfloat q52)]⟩
        (chars "timeout") 30 = goTrunc q52
    ∧ ScriptContext.GetIntVariable
        ⟨chars "d", chars "d_wait_1", [(chars "timeout", GoVal.vstr (chars "42"))]⟩
        (chars "timeout") 30 = 42
    ∧ ∃ ex, lookupA (GoScriptEngine.ExecuteScript builtinScripts ⟨[], []⟩
          ⟨chars "d", chars "wait", none⟩ 1).2.executions
          (generateExecutionID (chars "d") (chars "wait") 1) = some ex
        ∧ ex.context = some (NewScriptContext (chars "d")
            (generateExecutionID (chars "d") (chars "wait") 1) none) := by
  refine ⟨(C10_nil_vars_safe (chars "d") (chars "d_wait_1") (chars "u") (chars "x") 30).2.1,
    (C10_nil_vars_safe (chars "d") (chars "d_wait_1") (chars "timeout") (chars "x") 30).2.2.1,
    (C10_nil_vars_safe (chars "d") (chars "d_wait_1") (chars "timeout") (chars "x") 30).2.2.2.1
      _ 15 (by decide),
    (C10_nil_vars_safe (chars "d") (chars "d_wait_1") (chars "timeout") (chars "x") 30).2.2.2.2.1
      _ q52 (by decide),
    (C10_nil_vars_safe (chars "d") (chars "d_wait_1") (chars "timeout") (chars "x") 30).2.2.2.2.2.1
      _ (chars "42") 42 (by decide) (by decide),
    (C10_nil_vars_safe (chars "d") (chars "d_wait_1") (chars "timeout") (chars "x") 30).2.2.2.2.2.2
      builtinScripts ⟨[], []⟩ ⟨chars "d", chars "wait", none⟩ 1 rfl (by decide)⟩

/-! ### Claim C1 — engine-level response routing. -/

/-- C1 counterexample: the response for command `cmd_d_7` is delivered
into the response sink of the (sole) live execution `d_s_5`, although
`d_s_5` is not a leading segment of `cmd_d_7`.  The claim that a response
is only ever delivered to an execution whose id is a leading segment of
the response id is therefore false. -/
theorem C1_counterexample :
    deliveredTo exsOne respD7 = some (chars "d_s_5")
      ∧ goHasPre respD7.id (chars "d_s_5") = false := by
  decide

/-- C1 (amended): `HandleResponse` forwards every response to the first
execution (in map-iteration order) whose context holds an MQTT script
client, with no id comparison at all; that execution's waiter buffers the
response exactly when it has a pending entry under precisely the
response's command id; when no execution holds such a client, the
response is logged and dropped (state unchanged). -/
theorem C1_first_client_routing (executions : List EngExecution) (response : Response) :
    (GoScriptEngine.HandleResponse executions response).2
        = (executions.find? (fun e => e.waiter.isSome)).map EngExecution.id
      ∧ (executions.find? (fun e => e.waiter.isSome) = none →
          GoScriptEngine.HandleResponse executions response = (executions, none))
      ∧ (∀ i, deliveredTo executions response = some i →
          ∃ e w, executions.find? (fun e => e.waiter.isSome) = some e ∧ e.id = i
            ∧ e.waiter = some w ∧ lookupA w.pendingCommands response.id = some none) :=
  ⟨handleResponse_fwd response executions,
   handleResponse_drop response executions,
   fun i => deliveredTo_sound response executions i⟩

/-- C1 witness: with a client-less execution `a` ahead of execution `b`
waiting on `cmd_x_1`, the response for `cmd_x_1` is forwarded to `b`, and
its delivery is certified by `b`'s pending entry. -/
theorem C1_witness :
    (GoScriptEngine.HandleResponse exsTwo respX1).2 = some (chars "b")
      ∧ ∃ e w, exsTwo.find? (fun e => e.waiter.isSome) = some e
          ∧ e.id = chars "b" ∧ e.waiter = some w
          ∧ lookupA w.pendingCommands respX1.id = some none := by
  refine ⟨?_, ?_⟩
  · exact ((C1_first_client_routing exsTwo respX1).1).trans (by decide)
  · exact (C1_first_client_routing exsTwo respX1).2.2 (chars "b") (by decide)

/-! ### Claim C3 — terminal statuses and overwriting. -/

/-- C3 counterexample: cancel the running fixture execution (status
becomes the terminal `cancelled`), then let its script goroutine return
successfully: the finish step overwrites the status to `completed`.  A
terminal status is therefore not stable, and a cancelled execution can
later read `completed`. -/
theorem C3_counterexample :
    isTerminal (cancelStep runningExec 5).status = true
      ∧ (executeScriptAsyncFinish (cancelStep runningExec 5)
          (RunOutcome.ok okResult) 5 6).status = chars "completed"
      ∧ (executeScriptAsyncFinish (cancelStep runningExec 5)
          (RunOutcome.ok okResult) 5 6).status ≠ (cancelStep runningExec 5).status := by
  decide

/-- C3 (amended): `cancel` is guarded — it is the identity on any
non-running (in particular terminal) execution, and on a running
execution with a live context it sets `cancelled` and stamps the end
time — but the asynchronous finish step overwrites status and result
unconditionally when the script returns, always landing on `completed`
or `failed` and stamping the end time; so a cancelled execution whose
script later returns is re-marked `completed` or `failed`. -/
theorem C3_transition_discipline (e : ScriptExecution) (now runStart endT : Nat)
    (outcome : RunOutcome) :
    (isTerminal e.status = true → cancelStep e now = e)
      ∧ ((executeScriptAsyncFinish e outcome runStart endT).status = chars "completed"
          ∨ (executeScriptAsyncFinish e outcome runStart endT).status = chars "failed")
      ∧ (executeScriptAsyncFinish e outcome runStart endT).endTime = some endT
      ∧ (e.status = chars "running" → e.context.isSome = true →
          (cancelStep e now).status = chars "cancelled"
            ∧ (cancelStep e now).endTime = some now) := by
  refine ⟨fun ht => cancelStep_terminal now ht, ?_, ?_, ?_⟩
  · cases outcome with
    | err m => exact Or.inr rfl
    | ok r =>
        by_cases hs : r.success
        · exact Or.inl (by simp [executeScriptAsyncFinish, hs])
        · exact Or.inr (by simp [executeScriptAsyncFinish, hs])
    | panicked m => exact Or.inr rfl
  · cases outcome <;> rfl
  · intro hr hc
    have hcond : (e.status == chars "running" && e.context.isSome) = true := by
      rw [hr, hc]; decide
    constructor <;> simp [cancelStep, hcond]

/-- C3 witness: instantiating the amended discipline on the completed
fixture (no-op cancel), a successful finish, and the running fixture
(cancel fires). -/
theorem C3_witness :
    cancelStep doneExec 9 = doneExec
      ∧ ((executeScriptAsyncFinish runningExec (RunOutcome.ok okResult) 1 3).status
            = chars "completed"
          ∨ (executeScriptAsyncFinish runningExec (RunOutcome.ok okResult) 1 3).status
            = chars "failed")
      ∧ (executeScriptAsyncFinish runningExec (RunOutcome.ok okResult) 1 3).endTime = some 3
      ∧ (cancelStep runningExec 5).status = chars "cancelled"
      ∧ (cancelStep runningExec 5).endTime = some 5 := by
  refine ⟨(C3_transition_discipline doneExec 9 1 3 (RunOutcome.ok okResult)).1 (by decide),
    (C3_transition_discipline runningExec 9 1 3 (RunOutcome.ok okResult)).2.1,
    (C3_transition_discipline runningExec 9 1 3 (RunOutcome.ok okResult)).2.2.1,
    ?_, ?_⟩
  · exact ((C3_transition_discipline runningExec 5 1 3 (RunOutcome.ok okResult)).2.2.2
      rfl (by decide)).1
  · exact ((C3_transition_discipline runningExec 5 1 3 (RunOutcome.ok okResult)).2.2.2
      rfl (by decide)).2

/-! ### Claim C4 — persistence of terminal executions. -/

/-- C4 counterexample: `saveExecution` on the fixture record performs a
single direct write of `data/run1.json` — not a write of a temporary file
followed by a rename — so the persisted file is not written atomically as
the claim states. -/
theorem C4_counterexample :
    ¬ writesAtomicallyTo (ScriptEngine.saveExecution (chars "data") marshalStub ctxRun1)
        (chars "data" ++ chars "/" ++ chars "run1" ++ chars ".json") := by
  intro h
  obtain ⟨tmp, data, _, heq⟩ := h
  have : ScriptEngine.saveExecution (chars "data") marshalStub ctxRun1
      = [FsOp.write (chars "data/run1.json") (chars "\x7b\x7d")] := by decide
  rw [this] at heq
  simp at heq

/-- C4 (amended): when persistence is enabled and marshalling succeeds,
`saveExecution` writes the record to `<dir>/<execution_id>.json` in one
direct `os.WriteFile` call, with the pretty-printed payload produced by
`json.MarshalIndent`; no temporary file and no rename are involved. -/
theorem C4_save_direct_write (persistencePath : Str)
    (marshal : ExecutionContextM → Option Str) (context : ExecutionContextM)
    (data : Str) (hp : persistencePath ≠ []) (hm : marshal context = some data) :
    ScriptEngine.saveExecution persistencePath marshal context
      = [FsOp.write (persistencePath ++ chars "/" ++ context.executionID ++ chars ".json")
          data] := by
  have hpb : (persistencePath == []) = false := by
    cases persistencePath with
    | nil => exact absurd rfl hp
    | cons c t => rfl
  simp [ScriptEngine.saveExecution, hpb, hm]

/-- C4 witness: saving the fixture record under `data` writes exactly
`data/run1.json` with the marshalled payload. -/
theorem C4_witness :
    ScriptEngine.saveExecution (chars "data") marshalStub ctxRun1
      = [FsOp.write (chars "data" ++ chars "/" ++ chars "run1" ++ chars ".json")
          (chars "\x7b\x7d")] :=
  C4_save_direct_write (chars "data") marshalStub ctxRun1 (chars "\x7b\x7d")
    (by decide) (by decide)

/-! ### Claim C5 — request validation. -/

/-- C5 counterexample: a request with an empty `device_id` for the
registered `wait` script is accepted — `ExecuteScript` returns the
started `ScriptResponse` (execution id `_wait_0`) and inserts a live
execution record — instead of returning a validation error with no side
effects. -/
theorem C5_counterexample :
    (GoScriptEngine.ExecuteScript builtinScripts ⟨[], []⟩
        ⟨[], chars "wait", none⟩ 0).1
      = Except.ok { executionID := chars "_wait_0", status := chars "running",
                    message := chars "Script execution started", startTime := 0 }
      ∧ (GoScriptEngine.ExecuteScript builtinScripts ⟨[], []⟩
          ⟨[], chars "wait", none⟩ 0).2.executions ≠ [] := by
  exact ⟨rfl, by decide⟩

/-- C5 (amended): a `script_name` missing from the catalog is rejected
with a descriptive error and the engine state is returned unchanged (no
execution record, no response channel); `device_id` is not validated —
any request whose script is registered, including one with an empty
`device_id`, starts an execution whose record is inserted into the live
map. -/
theorem C5_validation (registry : List Str) (st : EngineState)
    (request : ScriptRequest) (now : Nat) :
    (registry.contains request.scriptName = false →
        GoScriptEngine.ExecuteScript registry st request now
          = (Except.error (chars "script " ++ request.scriptName ++ chars " not found"), st))
      ∧ (registry.contains request.scriptName = true →
          (GoScriptEngine.ExecuteScript registry st request now).1
              = Except.ok { executionID := generateExecutionID request.deviceID
                              request.scriptName now,
                            status := chars "running",
                            message := chars "Script execution started",
                            startTime := now }
            ∧ ∃ ex, lookupA (GoScriptEngine.ExecuteScript registry st request now).2.executions
                (generateExecutionID request.deviceID request.scriptName now) = some ex
              ∧ ex.status = chars "running") := by
  constructor
  · intro h
    exact executeScript_neg registry st request now h
  · intro h
    rw [executeScript_pos registry st request now h]
    exact ⟨rfl, _, lookupA_insertA st.executions _ _, rfl⟩

/-- C5 witness: the unknown script `nope` is rejected with the state
unchanged, and the registered `wait` script with an empty device id is
accepted with a running record inserted. -/
theorem C5_witness :
    GoScriptEngine.ExecuteScript builtinScripts ⟨[], []⟩ ⟨chars "d", chars "nope", none⟩ 0
        = (Except.error (chars "script " ++ chars "nope" ++ chars " not found"), ⟨[], []⟩)
      ∧ (GoScriptEngine.ExecuteScript builtinScripts ⟨[], []⟩ ⟨[], chars "wait", none⟩ 0).1
        = Except.ok { executionID := generateExecutionID [] (chars "wait") 0,
                      status := chars "running",
                      message := chars "Script execution started", startTime := 0 }
      ∧ ∃ ex, lookupA (GoScriptEngine.ExecuteScript builtinScripts ⟨[], []⟩
            ⟨[], chars "wait", none⟩ 0).2.executions
            (generateExecutionID [] (chars "wait") 0) = some ex
          ∧ ex.status = chars "running" := by
  refine ⟨(C5_validation builtinScripts ⟨[], []⟩ ⟨chars "d", chars "nope", none⟩ 0).1
      (by decide), ?_, ?_⟩
  · exact ((C5_validation builtinScripts ⟨[], []⟩ ⟨[], chars "wait", none⟩ 0).2 (by decide)).1
  · exact ((C5_validation builtinScripts ⟨[], []⟩ ⟨[], chars "wait", none⟩ 0).2 (by decide)).2

/-! ### Claim C6 — per-command timeout and correlator cleanup. -/

/-- C6 counterexample: after a wait that times out (no response arrives),
the correlator's map still holds the entry for the command id — it is
never removed on the timeout path — refuting the claim that the entry is
removed after the wait completes on both paths. -/
theorem C6_counterexample :
    lookupA (executeCommandRun ⟨[]⟩ shellCmdD 99 none).2.pendingCommands
        shellCmdD.id = some none := by
  decide

/-- C6 (amended): a command whose waiter receives no response within the
timeout returns the synthesized response with the command's id, status
`timeout` and error `command execution timeout`; on the response path the
correlator deletes the map entry while delivering, but on the timeout
path the entry is left in the map. -/
theorem C6_timeout_and_cleanup (rw : ResponseWaiter) (command : Command) (now : Int) :
    (executeCommandRun rw command now none).1 = timeoutResponse command now
      ∧ (timeoutResponse command now).id = command.id
      ∧ (timeoutResponse command now).status = chars "timeout"
      ∧ (timeoutResponse command now).error = chars "command execution timeout"
      ∧ lookupA (executeCommandRun rw command now none).2.pendingCommands
          command.id = some none
      ∧ (∀ r : Response, r.id = command.id →
          (executeCommandRun rw command now (some r)).1 = r
            ∧ lookupA (executeCommandRun rw command now (some r)).2.pendingCommands
                command.id = none) := by
  refine ⟨rfl, rfl, rfl, rfl, ?_, ?_⟩
  · exact lookupA_insertA rw.pendingCommands command.id none
  · intro r hr
    have hlook : lookupA (RegisterCommand rw command.id).pendingCommands r.id = some none := by
      rw [hr]; exact lookupA_insertA rw.pendingCommands command.id none
    have hbeq : (r.id == command.id) = true := by
      rw [hr]; exact beq_self_eq_true command.id
    constructor
    · simp [executeCommandRun, ResponseWaiter.HandleResponse, hlook, hbeq]
    · simp only [executeCommandRun, ResponseWaiter.HandleResponse, hlook, hbeq]
      simp only [hr, RegisterCommand]
      simpa using lookupA_eraseA (insertA rw.pendingCommands command.id none) command.id

/-- C6 witness: for the fixture shell command, the timeout path returns
the synthesized timeout response and leaves the pending entry, while a
matching device response is returned as-is and the entry is removed. -/
theorem C6_witness :
    (executeCommandRun ⟨[]⟩ shellCmdD 99 none).1 = timeoutResponse shellCmdD 99
      ∧ (timeoutResponse shellCmdD 99).status = chars "timeout"
      ∧ (executeCommandRun ⟨[]⟩ shellCmdD 99 (some respD7)).1 = respD7
      ∧ lookupA (executeCommandRun ⟨[]⟩ shellCmdD 99 (some respD7)).2.pendingCommands
          shellCmdD.id = none := by
  refine ⟨(C6_timeout_and_cleanup ⟨[]⟩ shellCmdD 99).1,
    (C6_timeout_and_cleanup ⟨[]⟩ shellCmdD 99).2.2.1, ?_, ?_⟩
  · exact ((C6_timeout_and_cleanup ⟨[]⟩ shellCmdD 99).2.2.2.2.2 respD7 (by decide)).1
  · exact ((C6_timeout_and_cleanup ⟨[]⟩ shellCmdD 99).2.2.2.2.2 respD7 (by decide)).2

/-! ### Claim C8 — agent shell execution and timeouts. -/

/-- C8 counterexample: the agent's shell handler given a tool outcome
whose error is `context deadline exceeded` (the text a deadline would
produce) answers status `error`, not `timeout` — the shell path never
produces a timeout status because no deadline is ever installed. -/
theorem C8_counterexample :
    (Client.executeShellCommand shellCmdD false (fun _ _ => []) (fun _ _ => killedOutcome)
        agentResp).status = chars "error"
      ∧ chars "error" ≠ chars "timeout" := by
  decide

/-- C8 (amended): the agent's shell handler ignores the command's
`timeout` entirely (the child process is unbounded: changing the timeout
field changes nothing); an empty command yields status `error` with the
agent's message, and any tool failure — whether the argv was defaulted to
`/bin/sh -c` or taken verbatim — yields status `error` carrying the
tool's error text; starting from the preset `success` response the shell
path only ever answers `success` or `error`, never `timeout`. -/
theorem C8_shell_unbounded (id exid ty cmdStr : Str) (x y : Int) (text : Str)
    (t₁ t₂ : Int) (args : List Str) (sn : Str) (ts : Int) (mock : Bool)
    (simulate : Str → List Str → Str) (runTool : Str → List Str → ToolOutcome)
    (r : Response) :
    Client.executeShellCommand ⟨id, exid, ty, cmdStr, x, y, text, t₁, args, sn, ts⟩
        mock simulate runTool r
      = Client.executeShellCommand ⟨id, exid, ty, cmdStr, x, y, text, t₂, args, sn, ts⟩
          mock simulate runTool r
      ∧ (cmdStr = [] →
          (Client.executeShellCommand ⟨id, exid, ty, cmdStr, x, y, text, t₁, args, sn, ts⟩
              mock simulate runTool r).status = chars "error"
            ∧ (Client.executeShellCommand ⟨id, exid, ty, cmdStr, x, y, text, t₁, args, sn, ts⟩
                mock simulate runTool r).error = chars "命令为空")
      ∧ (∀ e : Str, mock = false → cmdStr ≠ [] → args = [] →
          (runTool (chars "/bin/sh") [chars "-c", cmdStr]).err = some e →
          (Client.executeShellCommand ⟨id, exid, ty, cmdStr, x, y, text, t₁, args, sn, ts⟩
              mock simulate runTool r).status = chars "error"
            ∧ (Client.executeShellCommand ⟨id, exid, ty, cmdStr, x, y, text, t₁, args, sn, ts⟩
                mock simulate runTool r).error = e)
      ∧ (∀ e : Str, mock = false → cmdStr ≠ [] → args ≠ [] →
          (runTool cmdStr args).err = some e →
          (Client.executeShellCommand ⟨id, exid, ty, cmdStr, x, y, text, t₁, args, sn, ts⟩
              mock simulate runTool r).status = chars "error"
            ∧ (Client.executeShellCommand ⟨id, exid, ty, cmdStr, x, y, text, t₁, args, sn, ts⟩
                mock simulate runTool r).error = e)
      ∧ (r.status = chars "success" →
          ((Client.executeShellCommand ⟨id, exid, ty, cmdStr, x, y, text, t₁, args, sn, ts⟩
                mock simulate runTool r).status = chars "success"
              ∨ (Client.executeShellCommand ⟨id, exid, ty, cmdStr, x, y, text, t₁, args, sn, ts⟩
                  mock simulate runTool r).status = chars "error")
            ∧ (Client.executeShellCommand ⟨id, exid, ty, cmdStr, x, y, text, t₁, args, sn, ts⟩
                mock simulate runTool r).status ≠ chars "timeout") := by
  refine ⟨rfl, ?_, ?_, ?_, ?_⟩
  · intro h
    subst h
    exact ⟨rfl, rfl⟩
  · intro e hm hc ha he
    subst hm
    subst ha
    cases cmdStr with
    | nil => exact absurd rfl hc
    | cons c t =>
        have hred : Client.executeShellCommand
            ⟨id, exid, ty, c :: t, x, y, text, t₁, [], sn, ts⟩
            false simulate runTool r
          = match (runTool (chars "/bin/sh") [chars "-c", c :: t]).err with
            | some e' =>
                { { r with result := (runTool (chars "/bin/sh") [chars "-c", c :: t]).output }
                  with status := chars "error", error := e' }
            | none =>
                { r with result := (runTool (chars "/bin/sh") [chars "-c", c :: t]).output } :=
          rfl
        rw [hred, he]
        exact ⟨rfl, rfl⟩
  · intro e hm hc ha he
    subst hm
    cases cmdStr with
    | nil => exact absurd rfl hc
    | cons c t =>
        cases args with
        | nil => exact absurd rfl ha
        | cons a as =>
            have hred : Client.executeShellCommand
                ⟨id, exid, ty, c :: t, x, y, text, t₁, a :: as, sn, ts⟩
                false simulate runTool r
              = match (runTool (c :: t) (a :: as)).err with
                | some e' =>
                    { { r with result := (runTool (c :: t) (a :: as)).output }
                      with status := chars "error", error := e' }
                | none =>
                    { r with result := (runTool (c :: t) (a :: as)).output } :=
              rfl
            rw [hred, he]
            exact ⟨rfl, rfl⟩
  · intro hs
    have hd : (Client.executeShellCommand ⟨id, exid, ty, cmdStr, x, y, text, t₁, args, sn, ts⟩
          mock simulate runTool r).status = chars "success"
        ∨ (Client.executeShellCommand ⟨id, exid, ty, cmdStr, x, y, text, t₁, args, sn, ts⟩
            mock simulate runTool r).status = chars "error" := by
      by_cases hempty : (cmdStr == ([] : Str)) = true
      · exact Or.inr (by simp [Client.executeShellCommand, hempty])
      · have hempty' : (cmdStr == ([] : Str)) = false := by
          cases h : (cmdStr == ([] : Str)) with
          | true => exact absurd h hempty
          | false => rfl
        by_cases hmock : mock
        · exact Or.inl (by simp [Client.executeShellCommand, hempty', hmock, hs])
        · have hmock' : mock = false := by
            cases mock with
            | true => exact absurd rfl hmock
            | false => rfl
          simp only [Client.executeShellCommand, hempty', hmock', Bool.false_eq_true,
            if_false]
          split
          · exact Or.inr rfl
          · exact Or.inl hs
    exact ⟨hd, by rcases hd with h | h <;> rw [h] <;> decide⟩

/-- C8 witness: on the fixture command the timeout field is irrelevant
(30 vs 9999); an empty command answers `error` with the agent's message;
a failing tool run (the deadline-style error text) answers `error`
carrying that text, both with defaulted `/bin/sh -c` argv and with
explicit args; and from the preset `success` response the handler answers
`success` or `error`, never `timeout`. -/
theorem C8_witness :
    Client.executeShellCommand
        ⟨chars "cmd_d_7", [], chars "shell", chars "ls", 0, 0, [], 30, [], chars "d", 0⟩
        false (fun _ _ => []) (fun _ _ => killedOutcome) agentResp
      = Client.executeShellCommand
        ⟨chars "cmd_d_7", [], chars "shell", chars "ls", 0, 0, [], 9999, [], chars "d", 0⟩
        false (fun _ _ => []) (fun _ _ => killedOutcome) agentResp
      ∧ ((Client.executeShellCommand
            ⟨chars "cmd_d_7", [], chars "shell", [], 0, 0, [], 30, [], chars "d", 0⟩
            false (fun _ _ => []) (fun _ _ => killedOutcome) agentResp).status
            = chars "error"
          ∧ (Client.executeShellCommand
              ⟨chars "cmd_d_7", [], chars "shell", [], 0, 0, [], 30, [], chars "d", 0⟩
              false (fun _ _ => []) (fun _ _ => killedOutcome) agentResp).error
            = chars "命令为空")
      ∧ ((Client.executeShellCommand
            ⟨chars "cmd_d_7", [], chars "shell", chars "ls", 0, 0, [], 30, [], chars "d", 0⟩
            false (fun _ _ => []) (fun _ _ => killedOutcome) agentResp).status
            = chars "error"
          ∧ (Client.executeShellCommand
              ⟨chars "cmd_d_7", [], chars "shell", chars "ls", 0, 0, [], 30, [], chars "d", 0⟩
              false (fun _ _ => []) (fun _ _ => killedOutcome) agentResp).error
            = chars "context deadline exceeded")
      ∧ ((Client.executeShellCommand
            ⟨chars "cmd_d_7", [], chars "shell", chars "ls", 0, 0, [], 30, [chars "-la"],
              chars "d", 0⟩
            false (fun _ _ => []) (fun _ _ => killedOutcome) agentResp).status
            = chars "error"
          ∧ (Client.executeShellCommand
              ⟨chars "cmd_d_7", [], chars "shell", chars "ls", 0, 0, [], 30, [chars "-la"],
                chars "d", 0⟩
              false (fun _ _ => []) (fun _ _ => killedOutcome) agentResp).error
            = chars "context deadline exceeded")
      ∧ (((Client.executeShellCommand
              ⟨chars "cmd_d_7", [], chars "shell", chars "ls", 0, 0, [], 30, [], chars "d", 0⟩
              false (fun _ _ => []) (fun _ _ => killedOutcome) agentResp).status
              = chars "success"
            ∨ (Client.executeShellCommand
                ⟨chars "cmd_d_7", [], chars "shell", chars "ls", 0, 0, [], 30, [], chars "d", 0⟩
                false (fun _ _ => []) (fun _ _ => killedOutcome) agentResp).status
              = chars "error")
          ∧ (Client.executeShellCommand
              ⟨chars "cmd_d_7", [], chars "shell", chars "ls", 0, 0, [], 30, [], chars "d", 0⟩
              false (fun _ _ => []) (fun _ _ => killedOutcome) agentResp).status
            ≠ chars "timeout") := by
  refine ⟨(C8_shell_unbounded (chars "cmd_d_7") [] (chars "shell") (chars "ls") 0 0 []
      30 9999 [] (chars "d") 0 false (fun _ _ => []) (fun _ _ => killedOutcome) agentResp).1,
    (C8_shell_unbounded (chars "cmd_d_7") [] (chars "shell") [] 0 0 []
      30 9999 [] (chars "d") 0 false (fun _ _ => []) (fun _ _ => killedOutcome)
      agentResp).2.1 rfl,
    (C8_shell_unbounded (chars "cmd_d_7") [] (chars "shell") (chars "ls") 0 0 []
      30 9999 [] (chars "d") 0 false (fun _ _ => []) (fun _ _ => killedOutcome)
      agentResp).2.2.1 (chars "context deadline exceeded") rfl (by decide) rfl rfl,
    (C8_shell_unbounded (chars "cmd_d_7") [] (chars "shell") (chars "ls") 0 0 []
      30 9999 [chars "-la"] (chars "d") 0 false (fun _ _ => []) (fun _ _ => killedOutcome)
      agentResp).2.2.2.1 (chars "context deadline exceeded") rfl (by decide) (by decide) rfl,
    (C8_shell_unbounded (chars "cmd_d_7") [] (chars "shell") (chars "ls") 0 0 []
      30 9999 [] (chars "d") 0 false (fun _ _ => []) (fun _ _ => killedOutcome)
      agentResp).2.2.2.2 (by decide)⟩

end MqttAuto
